import Mathlib

/-!
# Verification of the masked-reconstruction training step (`src/scripts/train.py`)

A shallow embedding of the training script of the `unet-spikes` repository.
Tensors are modelled as a flat list of exact rational values together with a
shape and a dtype tag; PyTorch's elementwise arithmetic, boolean-mask
indexing and integer advanced indexing are modelled explicitly, since the
script indexes tensors both with boolean masks (training path) and — via
`torch.zeros_like` — with numeric zero masks (validation path).  Assertions
and indexing failures are modelled with `Except`.
-/

/-- PyTorch dtypes that occur in the script: boolean masks, integer
spike counts (`torch.long`), and `torch.float32`. -/
inductive DType
  | bool
  | int64
  | float32
deriving DecidableEq

/-- A tensor: a shape, a dtype, and the elements in row-major order.
Boolean tensors store `0`/`1`; values are exact rationals. -/
structure Tensor where
  shape : List Nat
  dtype : DType
  data : List ℚ
deriving DecidableEq

/-- `t.numel()`: the number of elements a tensor of this shape holds. -/
def Tensor.numel (t : Tensor) : Nat := t.shape.prod

/-- A tensor is well formed when its data has exactly `numel` elements. -/
def Tensor.wellFormed (t : Tensor) : Prop := t.data.length = t.numel

instance (t : Tensor) : Decidable t.wellFormed := by
  unfold Tensor.wellFormed; infer_instance

/-- `t.sum()`: the sum of all elements (for a boolean tensor, the count
of `True` entries, since they are stored as `1`). -/
def Tensor.sum (t : Tensor) : ℚ := t.data.sum

/-- The least element of a list, `none` when it is empty. -/
def listMin : List ℚ → Option ℚ
  | [] => none
  | x :: xs =>
      match listMin xs with
      | none => some x
      | some m => some (if x ≤ m then x else m)

/-- `t.min()`: the least element, `none` when the tensor is empty
(PyTorch raises on an empty reduction). -/
def Tensor.min (t : Tensor) : Option ℚ := listMin t.data

/-- `t.to(torch.float32)`: dtype cast; booleans `0`/`1` become the floats
`0.0`/`1.0`, integers their float value (modelled exactly). -/
def Tensor.toF32 (t : Tensor) : Tensor := ⟨t.shape, .float32, t.data⟩

/-- `torch.zeros_like(X)`: a tensor of zeros with X's shape AND X's dtype. -/
def zeros_like (t : Tensor) : Tensor :=
  ⟨t.shape, t.dtype, List.replicate t.numel 0⟩

/-- Type promotion for binary elementwise ops. -/
def DType.promote : DType → DType → DType
  | .float32, _ => .float32
  | _, .float32 => .float32
  | .int64, _ => .int64
  | _, .int64 => .int64
  | .bool, .bool => .bool

/-- Elementwise product `a * b` of same-shaped tensors (the script only
multiplies after asserting the shapes agree). -/
def tmul (a b : Tensor) : Tensor :=
  ⟨a.shape, a.dtype.promote b.dtype, List.zipWith (fun x y => x * y) a.data b.data⟩

/-- `c - t`: scalar minus tensor, elementwise. -/
def scalarSub (c : ℚ) (t : Tensor) : Tensor :=
  ⟨t.shape, t.dtype, t.data.map (fun x => c - x)⟩

/-- Failure modes of the script: the three `assert`s of `model_step`,
the messaged assert of `log_metrics`, and tensor-indexing errors. -/
inductive Err
  | assertShape
  | assertMaskFraction
  | assertMaskedSum
  | assertionFailure (msg : String)
  | indexShapeMismatch
  | indexBadDType
  | indexOutOfRange
  | indexDim
  | emptyReduction
  | nameError
deriving DecidableEq

/-- The `i`-th slice of `t` along the first axis, as a flat list. -/
def rowAt (t : Tensor) (i : Nat) : List ℚ :=
  let rowLen := t.shape.tail.prod
  (t.data.drop (i * rowLen)).take rowLen

/-- Interpret an element of an integer index tensor as an index into the
first axis of size `d0` (must be an integer in range; the script's zero
masks always hold `0`). -/
def qToIdx (d0 : Nat) (q : ℚ) : Option Nat :=
  if q.den = 1 ∧ 0 ≤ q.num ∧ q.num < d0 then some q.num.toNat else none

/-- All elements of an integer index tensor, as indices into the first
axis; `none` as soon as one is out of range. -/
def idxList (d0 : Nat) : List ℚ → Option (List Nat)
  | [] => some []
  | q :: qs =>
      match qToIdx d0 q, idxList d0 qs with
      | some i, some is => some (i :: is)
      | _, _ => none

/-- Boolean-mask selection on flat data: the elements of `td` whose
corresponding mask entry is true (nonzero), in order. -/
def boolSel : List ℚ → List ℚ → List ℚ
  | [], _ => []
  | _, [] => []
  | x :: td, m :: md => if m ≠ 0 then x :: boolSel td md else boolSel td md

/-- `t[idx]` for a tensor index `idx`, following PyTorch:
* a boolean `idx` of the same shape selects the elements at `True`
  positions into a 1-D tensor;
* an integer `idx` performs advanced indexing along the first axis:
  the result has shape `idx.shape ++ t.shape.tail` and is the
  concatenation of the selected slices;
* a float index tensor is an error. -/
def tindex (t idx : Tensor) : Except Err Tensor :=
  match idx.dtype with
  | .bool =>
      if idx.shape = t.shape then
        let sel := boolSel t.data idx.data
        .ok ⟨[sel.length], t.dtype, sel⟩
      else .error .indexShapeMismatch
  | .int64 =>
      match t.shape with
      | [] => .error .indexDim
      | d0 :: _ =>
          match idxList d0 idx.data with
          | some is => .ok ⟨idx.shape ++ t.shape.tail, t.dtype, is.flatMap (rowAt t)⟩
          | none => .error .indexOutOfRange
  | .float32 => .error .indexBadDType

/-- A model: parameters of some type `P` and a pure forward pass.  The
forward pass reads the parameters but cannot write them; in the script
they are only mutated by the optimizer, outside `model_step`. -/
structure Model (P : Type) where
  params : P
  forward : P → Tensor → Tensor

/-- A batch as yielded by the data loader: `(X, rate, _, _)`. -/
abbrev Batch := Tensor × Tensor × Tensor × Tensor

/-- The value `model_step` returns: `(loss, X_smoothed, X, the_mask, rate)`. -/
abbrev StepOut := ℚ × Tensor × Tensor × Tensor × Tensor

/-- `model_step(net, criterion, masker, batch, device, masking=True)` from
`src/scripts/train.py`, in state-passing form: the second component is the
model as the call leaves it (the function body never writes to the model,
so it is returned unchanged).

```
X, rate, _, _ = batch
rate = rate.to(device)
the_mask = masker(X) if masking else torch.zeros_like(X)
assert X.shape == the_mask.shape
assert the_mask.sum() < 0.5 * the_mask.numel()
X_masked = X * (1 - the_mask.to(torch.float32))
assert X_masked.sum() <= X.sum()
X_smoothed = net(X_masked.to(float32, device))
loss = criterion(X_smoothed[the_mask].to(float32, device),
                 X[the_mask].to(float32, device))
return loss, X_smoothed, X, the_mask, rate
```
Device moves are identities in this embedding. -/
def model_step {P : Type} (net : Model P) (criterion : Tensor → Tensor → ℚ)
    (masker : Tensor → Tensor) (batch : Batch) (masking : Bool := true) :
    Except Err StepOut × Model P :=
  let result : Except Err StepOut :=
    let X := batch.1
    let rate := batch.2.1
    let the_mask := if masking then masker X else zeros_like X
    if X.shape = the_mask.shape then
      if the_mask.sum < (1 / 2 : ℚ) * (the_mask.numel : ℚ) then
        let X_masked := tmul X (scalarSub 1 the_mask.toF32)
        if X_masked.sum ≤ X.sum then
          let X_smoothed := net.forward net.params X_masked.toF32
          match tindex X_smoothed the_mask, tindex X the_mask with
          | .ok p, .ok t =>
              .ok (criterion p.toF32 t.toF32, X_smoothed, X, the_mask, rate)
          | .error e, _ => .error e
          | .ok _, .error e => .error e
        else .error .assertMaskedSum
      else .error .assertMaskFraction
    else .error .assertShape
  (result, net)

/-- A scalar as handed to the logger: either an exact rational or the
real square root of one (PyTorch's `std` takes a square root; keeping the
radicand symbolic keeps the embedding exactly computable). -/
inductive ScalarVal
  | rat (x : ℚ)
  | sqrtRat (x : ℚ)
deriving DecidableEq

/-- `t.mean()`. -/
def Tensor.mean (t : Tensor) : ScalarVal :=
  .rat (t.data.sum / (t.data.length : ℚ))

/-- The mean as a rational, used inside `std`. -/
def Tensor.meanQ (t : Tensor) : ℚ := t.data.sum / (t.data.length : ℚ)

/-- `t.std()` (unbiased, PyTorch's default): the square root of
`Σ (x - mean)² / (n - 1)`, kept as a symbolic square root. -/
def Tensor.std (t : Tensor) : ScalarVal :=
  .sqrtRat ((t.data.map (fun x => (x - t.meanQ) ^ 2)).sum / ((t.data.length : ℚ) - 1))

/-- One `logger.add_scalar(tag, value, step)` record. -/
structure LogEntry where
  tag : String
  value : ScalarVal
  step : Nat
deriving DecidableEq

/-- `log_metrics(preds, targets, mask, logger, prefix, epoch)` from
`src/scripts/train.py`.  The Python body reads a variable `loss` that is
not among its parameters; it resolves to the module-level `loss` of the
training loop, modelled here as the explicit ambient argument
`ambient_loss`.

```
assert targets.min() >= 0, "Negative targets"
logger.add_scalar(f"{prefix}/loss", loss, epoch)
logger.add_scalar(f"{prefix}/mean_preds", preds.mean(), epoch)
logger.add_scalar(f"{prefix}/std_preds", preds.std(), epoch)
logger.add_scalar(f"{prefix}/mean_targets", targets.to(float32).mean(), epoch)
logger.add_scalar(f"{prefix}/std_targets", targets.to(float32).std(), epoch)
logger.add_scalar(f"{prefix}/mean_mask", mask.to(float32).mean(), epoch)
``` -/
def log_metrics (ambient_loss : ℚ) (preds targets mask : Tensor)
    (pfx : String) (epoch : Nat) : Except Err (List LogEntry) :=
  match targets.min with
  | none => .error .emptyReduction
  | some m =>
      if 0 ≤ m then
        .ok [⟨pfx ++ "/loss", .rat ambient_loss, epoch⟩,
             ⟨pfx ++ "/mean_preds", preds.mean, epoch⟩,
             ⟨pfx ++ "/std_preds", preds.std, epoch⟩,
             ⟨pfx ++ "/mean_targets", targets.toF32.mean, epoch⟩,
             ⟨pfx ++ "/std_targets", targets.toF32.std, epoch⟩,
             ⟨pfx ++ "/mean_mask", mask.toF32.mean, epoch⟩]
      else .error (.assertionFailure "Negative targets")

/-- `os.path.join(a, b)` for the one call site (a non-empty directory name
without trailing separator). -/
def os_path_join (a b : String) : String := a ++ "/" ++ b

/-- `SummaryWriter('Learning_rate=' + str(learning_rate)).get_logdir()`:
the writer is handed the log directory explicitly, so `get_logdir` returns
it.  `str(learning_rate)` is kept abstract as a string. -/
def logdirOf (lrStr : String) : String := "Learning_rate=" ++ lrStr

/-- `t[-1]`: the last slice along the first axis (the loop logs
`preds[-1]`, `targets[-1]`, `the_mask[-1]`, `rate[-1]` as images). -/
def tlast (t : Tensor) : Tensor :=
  ⟨t.shape.tail, t.dtype, rowAt t (t.shape.headD 1 - 1)⟩

/-- Observable side effects of the training loop on the logger and the
filesystem. -/
inductive Effect
  | addScalar (tag : String) (value : ScalarVal) (step : Nat)
  | addImage (tag : String) (img : Tensor) (step : Nat)
  | save (path : String)
deriving DecidableEq

/-- `torch.corrcoef(torch.stack([a, b]))[0, 1] ** 2`: the squared Pearson
correlation of two flattened tensors; the normalisation factors cancel in
the square, so it is an exact rational. -/
def squaredCorr (a b : List ℚ) : ℚ :=
  let am := a.sum / (a.length : ℚ)
  let bm := b.sum / (b.length : ℚ)
  let cov := (List.zipWith (fun x y => (x - am) * (y - bm)) a b).sum
  cov ^ 2 / ((a.map (fun x => (x - am) ^ 2)).sum * (b.map (fun y => (y - bm) ^ 2)).sum)

/-- Mutable program state threaded through the loop: the model (its
parameters are updated by the optimizer), the module-level variables
`loss, preds, targets, the_mask, rate` (unbound before the first batch),
and the effect trace. -/
structure RunState (P : Type) where
  net : Model P
  lastVals : Option StepOut
  effects : List Effect

/-- Each `logger.add_scalar` call a successful `log_metrics` performs. -/
def scalarEffects (entries : List LogEntry) : List Effect :=
  entries.map (fun e => .addScalar e.tag e.value e.step)

/-- One iteration of the train loop: `optimizer.zero_grad()`, a
`model_step` with masking, `loss.backward()` and `optimizer.step()`
(modelled by `optStep` on the parameters), then `log_metrics` with prefix
`"train"` at step `epoch * len(train_loader) + batch_num`. -/
def trainBatch {P : Type} (optStep : P → ℚ → P) (criterion : Tensor → Tensor → ℚ)
    (masker : Tensor → Tensor) (numBatches epoch batchNum : Nat)
    (st : RunState P) (batch : Batch) : Except Err (RunState P) :=
  match (model_step st.net criterion masker batch true).1 with
  | .error e => .error e
  | .ok out =>
      let loss := out.1
      let net' : Model P := ⟨optStep st.net.params loss, st.net.forward⟩
      let total_epoch := epoch * numBatches + batchNum
      match log_metrics loss out.2.1 out.2.2.1 out.2.2.2.1 "train" total_epoch with
      | .error e => .error e
      | .ok entries => .ok ⟨net', some out, st.effects ++ scalarEffects entries⟩

/-- The train loop over the epoch's batches, with `enumerate`'s counter. -/
def trainLoop {P : Type} (optStep : P → ℚ → P) (criterion : Tensor → Tensor → ℚ)
    (masker : Tensor → Tensor) (numBatches epoch : Nat) :
    List Batch → Nat → RunState P → Except Err (RunState P)
  | [], _, st => .ok st
  | b :: bs, n, st =>
      match trainBatch optStep criterion masker numBatches epoch n st b with
      | .error e => .error e
      | .ok st' => trainLoop optStep criterion masker numBatches epoch bs (n + 1) st'

/-- One iteration of the validation loop: a `model_step` with
`masking=False`, `log_metrics` with prefix `"val"`, then — since `rate`
is a tensor, `rate is not None` holds — a second identical `model_step`
whose loss is discarded, and the squared correlation of its flattened
predictions with `rate`, logged as `"val/r2"`. -/
def valBatch {P : Type} (criterion : Tensor → Tensor → ℚ)
    (masker : Tensor → Tensor) (numBatches epoch batchNum : Nat)
    (st : RunState P) (batch : Batch) : Except Err (RunState P) :=
  let total_epoch := epoch * numBatches + batchNum
  match (model_step st.net criterion masker batch false).1 with
  | .error e => .error e
  | .ok out =>
      match log_metrics out.1 out.2.1 out.2.2.1 out.2.2.2.1 "val" total_epoch with
      | .error e => .error e
      | .ok entries =>
          match (model_step st.net criterion masker batch false).1 with
          | .error e => .error e
          | .ok out2 =>
              let r2 := squaredCorr out2.2.1.data out2.2.2.2.2.data
              .ok ⟨st.net, some (out.1, out2.2),
                   st.effects ++ scalarEffects entries ++
                     [.addScalar "val/r2" (.rat r2) total_epoch]⟩

/-- The validation loop over the epoch's batches. -/
def valLoop {P : Type} (criterion : Tensor → Tensor → ℚ)
    (masker : Tensor → Tensor) (numBatches epoch : Nat) :
    List Batch → Nat → RunState P → Except Err (RunState P)
  | [], _, st => .ok st
  | b :: bs, n, st =>
      match valBatch criterion masker numBatches epoch n st b with
      | .error e => .error e
      | .ok st' => valLoop criterion masker numBatches epoch bs (n + 1) st'

/-- The four end-of-loop `add_image` calls, which read the module-level
variables left by the last batch (a `NameError` if no batch ever ran). -/
def imageBlock {P : Type} (pfx : String) (epoch : Nat) (st : RunState P) :
    Except Err (RunState P) :=
  match st.lastVals with
  | none => .error .nameError
  | some v =>
      .ok ⟨st.net, st.lastVals, st.effects ++
        [.addImage (pfx ++ "/preds") (tlast v.2.1) epoch,
         .addImage (pfx ++ "/targets") (tlast v.2.2.1) epoch,
         .addImage (pfx ++ "/the_mask") (tlast v.2.2.2.1) epoch,
         .addImage (pfx ++ "/rate") (tlast v.2.2.2.2) epoch]⟩

/-- One epoch: train loop, train images, validation loop, validation
images, then `torch.save(net.state_dict(), os.path.join(logger.get_logdir(),
f"model.pt"))`. -/
def epochStep {P : Type} (optStep : P → ℚ → P) (criterion : Tensor → Tensor → ℚ)
    (masker : Tensor → Tensor) (logdir : String)
    (trainBatches valBatches : List Batch) (epoch : Nat) (st : RunState P) :
    Except Err (RunState P) :=
  match trainLoop optStep criterion masker trainBatches.length epoch trainBatches 0 st with
  | .error e => .error e
  | .ok st1 =>
      match imageBlock "train" epoch st1 with
      | .error e => .error e
      | .ok st2 =>
          match valLoop criterion masker valBatches.length epoch valBatches 0 st2 with
          | .error e => .error e
          | .ok st3 =>
              match imageBlock "val" epoch st3 with
              | .error e => .error e
              | .ok st4 =>
                  .ok ⟨st4.net, st4.lastVals,
                       st4.effects ++ [.save (os_path_join logdir "model.pt")]⟩

/-- `for epoch in range(num_epochs)`, counting up from `e`. -/
def runEpochs {P : Type} (optStep : P → ℚ → P) (criterion : Tensor → Tensor → ℚ)
    (masker : Tensor → Tensor) (logdir : String)
    (trainBatches valBatches : List Batch) :
    Nat → Nat → RunState P → Except Err (RunState P)
  | 0, _, st => .ok st
  | n + 1, e, st =>
      match epochStep optStep criterion masker logdir trainBatches valBatches e st with
      | .error err => .error err
      | .ok st' =>
          runEpochs optStep criterion masker logdir trainBatches valBatches n (e + 1) st'

/-- The `__main__` training run: `num_epochs` epochs over fixed loaders,
logging into `Learning_rate=<lr>`. -/
def runTraining {P : Type} (numEpochs : Nat) (lrStr : String) (net0 : Model P)
    (optStep : P → ℚ → P) (criterion : Tensor → Tensor → ℚ)
    (masker : Tensor → Tensor) (trainBatches valBatches : List Batch) :
    Except Err (RunState P) :=
  runEpochs optStep criterion masker (logdirOf lrStr) trainBatches valBatches
    numEpochs 0 ⟨net0, none, []⟩

/-- The checkpoint paths an effect trace writes, in order. -/
def savePaths (l : List Effect) : List String :=
  l.filterMap (fun e => match e with | .save p => some p | _ => none)

/-! ## Claims -/

/-- Characterisation of every successful `model_step` call: the returned
tuple is `(criterion X_smoothed[the_mask] X[the_mask], X_smoothed, X,
the_mask, rate)`. -/
theorem model_step_ok_spec {P : Type} (net : Model P)
    (criterion : Tensor → Tensor → ℚ) (masker : Tensor → Tensor)
    (batch : Batch) (masking : Bool) (the_mask : Tensor) (out : StepOut)
    (hmask : the_mask = if masking then masker batch.1 else zeros_like batch.1)
    (h : (model_step net criterion masker batch masking).1 = .ok out) :
    ∃ p t : Tensor,
      tindex (net.forward net.params
          (tmul batch.1 (scalarSub 1 the_mask.toF32)).toF32) the_mask = .ok p ∧
      tindex batch.1 the_mask = .ok t ∧
      out = (criterion p.toF32 t.toF32,
             net.forward net.params
               (tmul batch.1 (scalarSub 1 the_mask.toF32)).toF32,
             batch.1, the_mask, batch.2.1) := by
  simp only [model_step] at h
  rw [← hmask] at h
  split at h
  · split at h
    · split at h
      · split at h
        · rename_i p t hp ht
          exact ⟨p, t, hp, ht, ((Except.ok.injEq _ _).mp h).symm⟩
        · exact absurd h (by simp)
        · exact absurd h (by simp)
      · exact absurd h (by simp)
    · exact absurd h (by simp)
  · exact absurd h (by simp)

/-- C1: for every batch `(X, rate, _, _)` on which `model_step` completes,
the returned loss is `criterion` applied to `X_smoothed[the_mask]` and
`X[the_mask]` (cast to float32) — the loss is evaluated only on masked
positions — and the returned value is exactly the 5-tuple
`(loss, predictions, X, the_mask, rate)`. -/
theorem model_step_loss_on_masked {P : Type} (net : Model P)
    (criterion : Tensor → Tensor → ℚ) (masker : Tensor → Tensor)
    (batch : Batch) (masking : Bool) (the_mask : Tensor) (out : StepOut)
    (hmask : the_mask = if masking then masker batch.1 else zeros_like batch.1)
    (h : (model_step net criterion masker batch masking).1 = .ok out) :
    ∃ p t : Tensor,
      tindex (net.forward net.params
          (tmul batch.1 (scalarSub 1 the_mask.toF32)).toF32) the_mask = .ok p ∧
      tindex batch.1 the_mask = .ok t ∧
      out = (criterion p.toF32 t.toF32,
             net.forward net.params
               (tmul batch.1 (scalarSub 1 the_mask.toF32)).toF32,
             batch.1, the_mask, batch.2.1) :=
  model_step_ok_spec net criterion masker batch masking the_mask out hmask h

/-- `nn.MSELoss(reduce=True)`: the mean of elementwise squared differences
(the criterion the script instantiates). -/
def mseLoss (input target : Tensor) : ℚ :=
  (List.zipWith (fun a b => (a - b) ^ 2) input.data target.data).sum
    / (input.data.length : ℚ)

/-- A small concrete spike-count batch used to exercise the definitions. -/
def tX : Tensor := ⟨[4], .int64, [0, 1, 2, 3]⟩

/-- A concrete boolean mask with a single true position. -/
def tMask1 : Tensor := ⟨[4], .bool, [1, 0, 0, 0]⟩

/-- A concrete rate tensor. -/
def tRate : Tensor := ⟨[4], .float32, [1, 2, 3, 4]⟩

/-- The two unused batch fields. -/
def tUnused : Tensor := ⟨[], .float32, []⟩

/-- The identity model (no parameters, forward pass returns its input). -/
def idNet : Model Unit := ⟨(), fun _ t => t⟩

/-- Witness for C1 at a concrete batch. -/
theorem model_step_loss_on_masked_witness :
    ∃ p t : Tensor,
      tindex (idNet.forward idNet.params
          (tmul tX (scalarSub 1 tMask1.toF32)).toF32) tMask1 = .ok p ∧
      tindex tX tMask1 = .ok t ∧
      ((0 : ℚ), (⟨[4], .float32, [0, 1, 2, 3]⟩ : Tensor), tX, tMask1, tRate)
        = (mseLoss p.toF32 t.toF32,
           idNet.forward idNet.params (tmul tX (scalarSub 1 tMask1.toF32)).toF32,
           tX, tMask1, tRate) :=
  model_step_loss_on_masked idNet mseLoss (fun _ => tMask1)
    (tX, tRate, tUnused, tUnused) true tMask1
    (0, ⟨[4], .float32, [0, 1, 2, 3]⟩, tX, tMask1, tRate) rfl
    (by norm_num [model_step, tindex, boolSel, tmul, scalarSub, Tensor.toF32,
          Tensor.sum, Tensor.numel, zeros_like, mseLoss, tX, tMask1, tRate,
          tUnused, idNet, DType.promote])

/-- A concrete boolean mask covering three of four positions (too many). -/
def tBigMask : Tensor := ⟨[4], .bool, [1, 1, 1, 0]⟩

/-- Tensor indexing never raises the mask-fraction assertion error. -/
theorem tindex_ne_assertMaskFraction (t idx : Tensor) :
    tindex t idx ≠ .error .assertMaskFraction := by
  unfold tindex
  split
  · split <;> simp
  · split
    · simp
    · split <;> simp
  · simp

/-- C2: with a mask of the input's shape, `model_step` fails with the
mask-fraction assertion exactly when `the_mask.sum() < 0.5 *
the_mask.numel()` is violated; under that precondition the assertion
branch is unreachable — the step never produces this error. -/
theorem model_step_mask_fraction {P : Type} (net : Model P)
    (criterion : Tensor → Tensor → ℚ) (masker : Tensor → Tensor)
    (batch : Batch) (masking : Bool) (the_mask : Tensor)
    (hmask : the_mask = if masking then masker batch.1 else zeros_like batch.1)
    (hshape : batch.1.shape = the_mask.shape) :
    (¬ the_mask.sum < (1 / 2 : ℚ) * (the_mask.numel : ℚ) →
        (model_step net criterion masker batch masking).1
          = .error .assertMaskFraction) ∧
    (the_mask.sum < (1 / 2 : ℚ) * (the_mask.numel : ℚ) →
        (model_step net criterion masker batch masking).1
          ≠ .error .assertMaskFraction) := by
  constructor
  · intro hfrac
    simp only [model_step]
    rw [← hmask, if_pos hshape, if_neg hfrac]
  · intro hfrac herr
    simp only [model_step] at herr
    rw [← hmask, if_pos hshape, if_pos hfrac] at herr
    split at herr
    · split at herr
      · exact absurd herr (by simp)
      · rw [Except.error.injEq] at herr
        subst herr
        exact tindex_ne_assertMaskFraction _ _ (by assumption)
      · rw [Except.error.injEq] at herr
        subst herr
        exact tindex_ne_assertMaskFraction _ _ (by assumption)
    · simp at herr

/-- Witness for C2: a mask covering 3 of 4 positions trips the assertion;
a mask covering 1 of 4 positions gets past it. -/
theorem model_step_mask_fraction_witness :
    (model_step idNet mseLoss (fun _ => tBigMask)
        (tX, tRate, tUnused, tUnused) true).1 = .error .assertMaskFraction ∧
    (model_step idNet mseLoss (fun _ => tMask1)
        (tX, tRate, tUnused, tUnused) true).1 ≠ .error .assertMaskFraction :=
  ⟨(model_step_mask_fraction idNet mseLoss (fun _ => tBigMask)
      (tX, tRate, tUnused, tUnused) true tBigMask rfl rfl).1
      (by norm_num [Tensor.sum, Tensor.numel, tBigMask]),
   (model_step_mask_fraction idNet mseLoss (fun _ => tMask1)
      (tX, tRate, tUnused, tUnused) true tMask1 rfl rfl).2
      (by norm_num [Tensor.sum, Tensor.numel, tMask1])⟩

/-- C4: when `model_step` is called with `masking=False`, the mask it
builds and returns is `torch.zeros_like(X)`: it has X's shape and every
entry is zero. -/
theorem model_step_no_masking_zero_mask {P : Type} (net : Model P)
    (criterion : Tensor → Tensor → ℚ) (masker : Tensor → Tensor)
    (batch : Batch) (out : StepOut)
    (h : (model_step net criterion masker batch false).1 = .ok out) :
    out.2.2.2.1 = zeros_like batch.1 ∧
    out.2.2.2.1.shape = batch.1.shape ∧
    ∀ v ∈ out.2.2.2.1.data, v = 0 := by
  obtain ⟨p, t, -, -, hout⟩ :=
    model_step_ok_spec net criterion masker batch false (zeros_like batch.1)
      out rfl h
  subst hout
  refine ⟨rfl, rfl, ?_⟩
  intro v hv
  exact List.eq_of_mem_replicate hv

/-- Witness for C4 at a concrete batch. -/
theorem model_step_no_masking_zero_mask_witness :
    ∃ out : StepOut,
      (model_step idNet mseLoss (fun _ => tBigMask)
          (tX, tRate, tUnused, tUnused) false).1 = .ok out ∧
      out.2.2.2.1 = zeros_like tX ∧
      out.2.2.2.1.shape = tX.shape ∧
      ∀ v ∈ out.2.2.2.1.data, v = 0 := by
  have h : (model_step idNet mseLoss (fun _ => tBigMask)
      (tX, tRate, tUnused, tUnused) false).1
      = .ok (0, ⟨[4], .float32, [0, 1, 2, 3]⟩, tX,
             zeros_like tX, tRate) := by
    norm_num [model_step, tindex, boolSel, tmul, scalarSub, Tensor.toF32,
      Tensor.sum, Tensor.numel, zeros_like, mseLoss, tX, tBigMask, tRate,
      tUnused, idNet, DType.promote, idxList, qToIdx, rowAt,
      List.replicate, List.flatMap, List.take, List.drop]
  exact ⟨_, h,
    model_step_no_masking_zero_mask idNet mseLoss (fun _ => tBigMask)
      (tX, tRate, tUnused, tUnused) _ h⟩

/-- Summing `x * (1 - m)` over nonnegative values `x` and 0/1 mask
entries `m` never exceeds the plain sum. -/
theorem zip_masked_sum_le (xs ms : List ℚ) (hx : ∀ x ∈ xs, 0 ≤ x)
    (hm : ∀ v ∈ ms, v = 0 ∨ v = 1) :
    (List.zipWith (fun x y => x * y) xs (ms.map (fun v => 1 - v))).sum
      ≤ xs.sum := by
  induction xs generalizing ms with
  | nil => simp
  | cons x xs ih =>
      cases ms with
      | nil =>
          simpa using List.sum_nonneg hx
      | cons m ms =>
          simp only [List.map_cons, List.zipWith_cons_cons, List.sum_cons]
          have h1 : x * (1 - m) ≤ x := by
            rcases hm m (by simp) with h | h
            · simp [h]
            · simpa [h] using hx x (by simp)
          have h2 := ih ms (fun y hy => hx y (List.mem_cons_of_mem _ hy))
            (fun v hv => hm v (List.mem_cons_of_mem _ hv))
          exact add_le_add h1 h2

/-- `sum(X * (1 - mask)) <= sum(X)` for nonnegative `X` and a 0/1 mask,
at the tensor level: exactly the third assertion of `model_step`. -/
theorem masked_sum_le (X m : Tensor) (hx : ∀ x ∈ X.data, 0 ≤ x)
    (hm : ∀ v ∈ m.data, v = 0 ∨ v = 1) :
    (tmul X (scalarSub 1 m.toF32)).sum ≤ X.sum := by
  simp only [tmul, scalarSub, Tensor.toF32, Tensor.sum]
  exact zip_masked_sum_le _ _ hx hm

/-- Tensor indexing never raises the masked-sum assertion error. -/
theorem tindex_ne_assertMaskedSum (t idx : Tensor) :
    tindex t idx ≠ .error .assertMaskedSum := by
  unfold tindex
  split
  · split <;> simp
  · split
    · simp
    · split <;> simp
  · simp

/-- Characterisation of every failing `model_step` call: the error is one
of the three assertions (with its condition violated) or an indexing
error propagated from `tindex`. -/
theorem model_step_error_spec {P : Type} (net : Model P)
    (criterion : Tensor → Tensor → ℚ) (masker : Tensor → Tensor)
    (batch : Batch) (masking : Bool) (the_mask : Tensor)
    (hmask : the_mask = if masking then masker batch.1 else zeros_like batch.1)
    (e : Err)
    (h : (model_step net criterion masker batch masking).1 = .error e) :
    (e = .assertShape ∧ ¬ batch.1.shape = the_mask.shape) ∨
    (e = .assertMaskFraction ∧
      ¬ the_mask.sum < (1 / 2 : ℚ) * (the_mask.numel : ℚ)) ∨
    (e = .assertMaskedSum ∧
      ¬ (tmul batch.1 (scalarSub 1 the_mask.toF32)).sum ≤ batch.1.sum) ∨
    tindex (net.forward net.params
      (tmul batch.1 (scalarSub 1 the_mask.toF32)).toF32) the_mask = .error e ∨
    tindex batch.1 the_mask = .error e := by
  simp only [model_step] at h
  rw [← hmask] at h
  split at h
  · split at h
    · split at h
      · split at h
        · exact absurd h (by simp)
        · rw [Except.error.injEq] at h
          subst h
          exact Or.inr (Or.inr (Or.inr (Or.inl (by assumption))))
        · rw [Except.error.injEq] at h
          subst h
          exact Or.inr (Or.inr (Or.inr (Or.inr (by assumption))))
      · rw [Except.error.injEq] at h
        exact Or.inr (Or.inr (Or.inl ⟨h.symm, by assumption⟩))
    · rw [Except.error.injEq] at h
      exact Or.inr (Or.inl ⟨h.symm, by assumption⟩)
  · rw [Except.error.injEq] at h
    exact Or.inl ⟨h.symm, by assumption⟩

/-- C3: for every input `X` with nonnegative elements and every 0/1 mask,
`sum(X * (1 - mask)) <= sum(X)`, so `model_step` never fails with the
corresponding assertion on nonnegative spike-count inputs. -/
theorem model_step_masked_sum_invariant {P : Type} (net : Model P)
    (criterion : Tensor → Tensor → ℚ) (masker : Tensor → Tensor)
    (batch : Batch) (masking : Bool) (the_mask : Tensor)
    (hmask : the_mask = if masking then masker batch.1 else zeros_like batch.1)
    (hx : ∀ x ∈ batch.1.data, 0 ≤ x)
    (hm : ∀ v ∈ the_mask.data, v = 0 ∨ v = 1) :
    (tmul batch.1 (scalarSub 1 the_mask.toF32)).sum ≤ batch.1.sum ∧
    (model_step net criterion masker batch masking).1
      ≠ .error .assertMaskedSum := by
  have hle := masked_sum_le batch.1 the_mask hx hm
  refine ⟨hle, ?_⟩
  intro herr
  rcases model_step_error_spec net criterion masker batch masking the_mask
      hmask _ herr with ⟨he, -⟩ | ⟨he, -⟩ | ⟨-, hnle⟩ | hidx | hidx
  · simp at he
  · simp at he
  · exact hnle hle
  · exact tindex_ne_assertMaskedSum _ _ hidx
  · exact tindex_ne_assertMaskedSum _ _ hidx

/-- Witness for C3 at a concrete nonnegative batch and 0/1 mask. -/
theorem model_step_masked_sum_invariant_witness :
    (tmul tX (scalarSub 1 tMask1.toF32)).sum ≤ tX.sum ∧
    (model_step idNet mseLoss (fun _ => tMask1)
        (tX, tRate, tUnused, tUnused) true).1 ≠ .error .assertMaskedSum :=
  model_step_masked_sum_invariant idNet mseLoss (fun _ => tMask1)
    (tX, tRate, tUnused, tUnused) true tMask1 rfl
    (by norm_num [tX]) (by norm_num [tMask1])

/-- C8: `model_step` mutates no external state: the model it leaves
behind is the model it was given — in particular the parameters are
identical before and after the call (they are only mutated outside, by
the optimizer after `loss.backward()`). -/
theorem model_step_no_side_effects {P : Type} (net : Model P)
    (criterion : Tensor → Tensor → ℚ) (masker : Tensor → Tensor)
    (batch : Batch) (masking : Bool) :
    (model_step net criterion masker batch masking).2 = net ∧
    (model_step net criterion masker batch masking).2.params = net.params :=
  ⟨rfl, rfl⟩

/-- Every successful `log_metrics` call logs the ambient `loss` first,
under the tag `<prefix>/loss`. -/
theorem log_metrics_ok_head (l : ℚ) (preds targets mask : Tensor)
    (pfx : String) (epoch : Nat) (entries : List LogEntry)
    (h : log_metrics l preds targets mask pfx epoch = .ok entries) :
    entries.head? = some ⟨pfx ++ "/loss", .rat l, epoch⟩ := by
  unfold log_metrics at h
  split at h
  · exact absurd h (by simp)
  · split at h
    · rw [Except.ok.injEq] at h
      subst h
      rfl
    · exact absurd h (by simp)

/-- C6: the value `log_metrics` records under `<prefix>/loss` is the
ambient `loss` variable — not any of its parameters: whatever tensors
are passed, the logged loss value is the same ambient value. -/
theorem log_metrics_ambient_loss (l : ℚ) (preds targets mask : Tensor)
    (pfx : String) (epoch : Nat) (entries : List LogEntry)
    (h : log_metrics l preds targets mask pfx epoch = .ok entries) :
    entries.head? = some ⟨pfx ++ "/loss", .rat l, epoch⟩ ∧
    ∀ (preds' targets' mask' : Tensor) (entries' : List LogEntry),
      log_metrics l preds' targets' mask' pfx epoch = .ok entries' →
      entries'.head? = entries.head? := by
  refine ⟨log_metrics_ok_head l preds targets mask pfx epoch entries h, ?_⟩
  intro preds' targets' mask' entries' h'
  rw [log_metrics_ok_head l preds' targets' mask' pfx epoch entries' h',
    log_metrics_ok_head l preds targets mask pfx epoch entries h]

/-- Witness for C6 at concrete tensors and ambient loss 5. -/
theorem log_metrics_ambient_loss_witness :
    ∃ entries : List LogEntry,
      log_metrics 5 tRate tX tMask1 "train" 0 = .ok entries ∧
      entries.head? = some ⟨"train" ++ "/loss", .rat 5, 0⟩ := by
  have h : log_metrics 5 tRate tX tMask1 "train" 0 = .ok
      [⟨"train" ++ "/loss", .rat 5, 0⟩,
       ⟨"train" ++ "/mean_preds", tRate.mean, 0⟩,
       ⟨"train" ++ "/std_preds", tRate.std, 0⟩,
       ⟨"train" ++ "/mean_targets", tX.toF32.mean, 0⟩,
       ⟨"train" ++ "/std_targets", tX.toF32.std, 0⟩,
       ⟨"train" ++ "/mean_mask", tMask1.toF32.mean, 0⟩] := by
    norm_num [log_metrics, Tensor.min, listMin, tX]
  exact ⟨_, h, (log_metrics_ambient_loss 5 tRate tX tMask1 "train" 0 _ h).1⟩

/-- `listMin` of a list containing `x` is some value at most `x`. -/
theorem listMin_le_mem :
    ∀ (xs : List ℚ) (x : ℚ), x ∈ xs → ∃ m, listMin xs = some m ∧ m ≤ x := by
  intro xs
  induction xs with
  | nil => intro x hx; simp at hx
  | cons a xs ih =>
      intro x hx
      rcases List.mem_cons.mp hx with rfl | hx'
      · cases h' : listMin xs with
        | none => exact ⟨x, by simp [listMin, h'], le_refl x⟩
        | some m =>
            refine ⟨if x ≤ m then x else m, by simp [listMin, h'], ?_⟩
            split
            · exact le_refl x
            · exact le_of_not_le (by assumption)
      · obtain ⟨m, hm, hle⟩ := ih x hx'
        refine ⟨if a ≤ m then a else m, by simp [listMin, hm], ?_⟩
        split
        · exact le_trans (by assumption) hle
        · exact hle

/-- `listMin` returns an element of the list. -/
theorem listMin_mem :
    ∀ (xs : List ℚ) (m : ℚ), listMin xs = some m → m ∈ xs := by
  intro xs
  induction xs with
  | nil => intro m hm; simp [listMin] at hm
  | cons a xs ih =>
      intro m hm
      unfold listMin at hm
      revert hm
      cases h' : listMin xs with
      | none =>
          intro hm
          rw [Option.some.injEq] at hm
          exact hm ▸ List.mem_cons_self a xs
      | some m' =>
          intro hm
          rw [Option.some.injEq] at hm
          subst hm
          split
          · exact List.mem_cons_self a xs
          · exact List.mem_cons_of_mem a (ih m' h')

/-- A nonempty list has a minimum. -/
theorem listMin_ne_none (xs : List ℚ) (h : xs ≠ []) :
    ∃ m, listMin xs = some m := by
  cases xs with
  | nil => exact absurd rfl h
  | cons a xs =>
      cases h' : listMin xs with
      | none => exact ⟨a, by simp [listMin, h']⟩
      | some m => exact ⟨if a ≤ m then a else m, by simp [listMin, h']⟩

/-- C9: `log_metrics` fails with the assertion message "Negative targets"
(before logging anything) whenever `targets` contains a negative value;
when the minimum of a nonempty `targets` is nonnegative, it succeeds and
logs exactly the six scalars. -/
theorem log_metrics_negative_targets (l : ℚ) (preds targets mask : Tensor)
    (pfx : String) (epoch : Nat) :
    ((∃ x ∈ targets.data, x < 0) →
        log_metrics l preds targets mask pfx epoch
          = .error (.assertionFailure "Negative targets")) ∧
    ((targets.data ≠ [] ∧ ∀ x ∈ targets.data, 0 ≤ x) →
        log_metrics l preds targets mask pfx epoch
          = .ok [⟨pfx ++ "/loss", .rat l, epoch⟩,
                 ⟨pfx ++ "/mean_preds", preds.mean, epoch⟩,
                 ⟨pfx ++ "/std_preds", preds.std, epoch⟩,
                 ⟨pfx ++ "/mean_targets", targets.toF32.mean, epoch⟩,
                 ⟨pfx ++ "/std_targets", targets.toF32.std, epoch⟩,
                 ⟨pfx ++ "/mean_mask", mask.toF32.mean, epoch⟩]) := by
  constructor
  · rintro ⟨x, hx, hneg⟩
    obtain ⟨m, hm, hle⟩ := listMin_le_mem targets.data x hx
    have hcond : ¬ (0 ≤ m) := not_le.mpr (lt_of_le_of_lt hle hneg)
    simp only [log_metrics, Tensor.min, hm, if_neg hcond]
  · rintro ⟨hne, hnn⟩
    obtain ⟨m, hm⟩ := listMin_ne_none targets.data hne
    have hcond : 0 ≤ m := hnn m (listMin_mem targets.data m hm)
    simp only [log_metrics, Tensor.min, hm, if_pos hcond]

/-- A targets tensor with one negative entry. -/
def tNeg : Tensor := ⟨[2], .float32, [1, -1]⟩

/-- Witness for C9: a negative target trips the assertion; nonnegative
targets log all six scalars. -/
theorem log_metrics_negative_targets_witness :
    log_metrics 3 tRate tNeg tMask1 "val" 7
      = .error (.assertionFailure "Negative targets") ∧
    log_metrics 3 tRate tX tMask1 "val" 7
      = .ok [⟨"val" ++ "/loss", .rat 3, 7⟩,
             ⟨"val" ++ "/mean_preds", tRate.mean, 7⟩,
             ⟨"val" ++ "/std_preds", tRate.std, 7⟩,
             ⟨"val" ++ "/mean_targets", tX.toF32.mean, 7⟩,
             ⟨"val" ++ "/std_targets", tX.toF32.std, 7⟩,
             ⟨"val" ++ "/mean_mask", tMask1.toF32.mean, 7⟩] :=
  ⟨(log_metrics_negative_targets 3 tRate tNeg tMask1 "val" 7).1
      ⟨-1, by norm_num [tNeg], by norm_num⟩,
   (log_metrics_negative_targets 3 tRate tX tMask1 "val" 7).2
      ⟨by simp [tX], by norm_num [tX]⟩⟩

/-- Counterexample to C5 as stated: X = [0,0,1,0], a mask true exactly at
the position holding 1, and the identity model give loss 1, not
`(X_at - X_at)^2 = 0` — the identity model receives the masked (zeroed)
input, so its prediction at the masked position is 0, not `X_at`. -/
theorem model_step_identity_loss_counterexample :
    (model_step idNet mseLoss (fun _ => (⟨[4], .bool, [0, 0, 1, 0]⟩ : Tensor))
        ((⟨[4], .int64, [0, 0, 1, 0]⟩ : Tensor), tRate, tUnused, tUnused)
        true).1
      = .ok (1, ⟨[4], .float32, [0, 0, 0, 0]⟩,
             ⟨[4], .int64, [0, 0, 1, 0]⟩,
             ⟨[4], .bool, [0, 0, 1, 0]⟩, tRate) ∧ (1 : ℚ) ≠ 0 := by
  constructor
  · norm_num [model_step, tindex, boolSel, tmul, scalarSub, Tensor.toF32,
      Tensor.sum, Tensor.numel, zeros_like, mseLoss, tRate, tUnused, idNet,
      DType.promote]
  · norm_num

/-- Selecting with an all-false mask yields nothing. -/
theorem boolSel_replicate_zero :
    ∀ (c : List ℚ) (n : Nat), boolSel c (List.replicate n 0) = [] := by
  intro c
  induction c with
  | nil => intro n; cases n <;> simp [boolSel]
  | cons x c ih =>
      intro n
      cases n with
      | zero => simp [boolSel]
      | succ n => simpa [boolSel, List.replicate] using ih n

/-- `boolSel` distributes over appending equal-length prefixes. -/
theorem boolSel_append :
    ∀ (a c b d : List ℚ), a.length = c.length →
      boolSel (a ++ b) (c ++ d) = boolSel a c ++ boolSel b d := by
  intro a
  induction a with
  | nil =>
      intro c b d hlen
      cases c with
      | nil => simp [boolSel]
      | cons _ _ => simp at hlen
  | cons x a ih =>
      intro c b d hlen
      cases c with
      | nil => simp at hlen
      | cons m c =>
          simp only [List.cons_append, boolSel, List.append_eq]
          rw [ih c b d (by simpa using hlen)]
          split <;> simp

/-- Selecting with a one-hot mask picks out exactly the hot element. -/
theorem boolSel_one_hot (n1 n2 : Nat) (A B : List ℚ) (x : ℚ)
    (h1 : A.length = n1) :
    boolSel (A ++ x :: B)
      (List.replicate n1 0 ++ 1 :: List.replicate n2 0) = [x] := by
  rw [boolSel_append A (List.replicate n1 0) (x :: B)
      (1 :: List.replicate n2 0) (by simp [h1])]
  rw [boolSel_replicate_zero]
  simp [boolSel, boolSel_replicate_zero]

/-- C5 (amended): for an input X with one masked position holding value
`x`, a boolean mask true exactly there, and the identity model, the loss
is `(0 - x)^2 = x^2`: the identity model reproduces the masked (zeroed)
input, so its prediction at the masked position is 0, not `x`. -/
theorem model_step_identity_model_loss (X mask rate a b : Tensor)
    (l1 l2 : List ℚ) (x : ℚ)
    (hX : X.data = l1 ++ x :: l2)
    (hm : mask.data = List.replicate l1.length 0 ++ 1 :: List.replicate l2.length 0)
    (hdt : mask.dtype = .bool)
    (hsh : mask.shape = X.shape)
    (hnn : ∀ v ∈ X.data, 0 ≤ v)
    (hbig : 2 < X.numel) :
    (model_step idNet mseLoss (fun _ => mask) (X, rate, a, b) true).1
      = .ok (x ^ 2, (tmul X (scalarSub 1 mask.toF32)).toF32, X, mask, rate) := by
  have hments : ∀ v ∈ mask.data, v = 0 ∨ v = 1 := by
    rw [hm]
    intro v hv
    rcases List.mem_append.mp hv with h | h
    · exact Or.inl (List.eq_of_mem_replicate h)
    · rcases List.mem_cons.mp h with h | h
      · exact Or.inr h
      · exact Or.inl (List.eq_of_mem_replicate h)
  have hsum : mask.sum = 1 := by
    simp [Tensor.sum, hm]
  have hnumel : mask.numel = X.numel := by
    simp [Tensor.numel, hsh]
  have hfrac : mask.sum < (1 / 2 : ℚ) * (mask.numel : ℚ) := by
    rw [hsum, hnumel]
    have h2 : (2 : ℚ) < (X.numel : ℚ) := by exact_mod_cast hbig
    linarith
  have hle := masked_sum_le X mask hnn hments
  have hmap : List.map (fun v => (1 : ℚ) - v) mask.data
      = List.replicate l1.length 1 ++ 0 :: List.replicate l2.length 1 := by
    rw [hm, List.map_append, List.map_cons, List.map_replicate,
      List.map_replicate]
    norm_num
  have hXm : (tmul X (scalarSub 1 mask.toF32)).data
      = List.zipWith (fun u v => u * v) l1 (List.replicate l1.length 1)
        ++ (x * 0)
          :: List.zipWith (fun u v => u * v) l2 (List.replicate l2.length 1) := by
    simp only [tmul, scalarSub, Tensor.toF32]
    rw [hX, hmap, List.zipWith_append _ l1 (x :: l2)
      (List.replicate l1.length 1) (0 :: List.replicate l2.length 1) (by simp),
      List.zipWith_cons_cons]
  have hshape2 : mask.shape = ((tmul X (scalarSub 1 mask.toF32)).toF32).shape := by
    simpa [Tensor.toF32, tmul] using hsh
  have hselp : boolSel ((tmul X (scalarSub 1 mask.toF32)).toF32).data mask.data
      = [x * 0] := by
    have hdata : ((tmul X (scalarSub 1 mask.toF32)).toF32).data
        = (tmul X (scalarSub 1 mask.toF32)).data := rfl
    rw [hdata, hXm, hm]
    exact boolSel_one_hot l1.length l2.length _ _ (x * 0) (by simp)
  have hselt : boolSel X.data mask.data = [x] := by
    rw [hX, hm]
    exact boolSel_one_hot l1.length l2.length l1 l2 x rfl
  have hp : tindex ((tmul X (scalarSub 1 mask.toF32)).toF32) mask
      = .ok ⟨[1], .float32, [x * 0]⟩ := by
    simp only [tindex, hdt, if_pos hshape2, hselp]
    rfl
  have ht : tindex X mask = .ok ⟨[1], X.dtype, [x]⟩ := by
    simp only [tindex, hdt, if_pos hsh, hselt]
    rfl
  simp only [model_step, reduceIte]
  rw [if_pos hsh.symm, if_pos hfrac]
  rw [show idNet.forward idNet.params ((tmul X (scalarSub 1 mask.toF32)).toF32)
      = (tmul X (scalarSub 1 mask.toF32)).toF32 from rfl]
  rw [if_pos hle, hp, ht]
  simp only [mseLoss, Tensor.toF32]
  norm_num

/-- A spike-count input whose masked position holds 7. -/
def tX2 : Tensor := ⟨[4], .int64, [5, 0, 7, 2]⟩

/-- A one-hot boolean mask at position 2. -/
def tMask2 : Tensor := ⟨[4], .bool, [0, 0, 1, 0]⟩

/-- Witness for the amended C5: the loss is `7^2`, the square of the
value at the masked position. -/
theorem model_step_identity_model_loss_witness :
    (model_step idNet mseLoss (fun _ => tMask2)
        (tX2, tRate, tUnused, tUnused) true).1
      = .ok ((7 : ℚ) ^ 2, (tmul tX2 (scalarSub 1 tMask2.toF32)).toF32,
             tX2, tMask2, tRate) :=
  model_step_identity_model_loss tX2 tMask2 tRate tUnused tUnused
    [5, 0] [2] 7 rfl rfl rfl rfl (by norm_num [tX2]) (by decide)

/-- Modelled from the spec: the dataset module that builds the batches
(`src/dataset.py`) is not among the sources, so X's dtype is not visible
in code.  Spec §3 describes X as a numeric spike-count tensor, and the
script itself casts `targets` (which is X) with `.to(torch.float32)`
before taking means — a cast needed precisely when the counts are an
integer dtype.  The batch dtype is therefore modelled as `int64`. -/
def spikeDType : DType := .int64

/-- Multiplying elementwise by an all-ones list of matching length is the
identity. -/
theorem zipWith_mul_one :
    ∀ (xs : List ℚ),
      List.zipWith (fun u v => u * v) xs (List.replicate xs.length 1) = xs := by
  intro xs
  induction xs with
  | nil => rfl
  | cons x xs ih => simp [List.replicate_succ, ih]

/-- The rational `0` is a valid index into any nonempty first axis. -/
theorem qToIdx_zero (d0 : Nat) (h : 0 < d0) : qToIdx d0 0 = some 0 := by
  unfold qToIdx
  rw [if_pos]
  · norm_num
  · refine ⟨by norm_num, by norm_num, ?_⟩
    norm_num
    exact_mod_cast h

/-- An all-zero rational index list resolves to all-zero indices. -/
theorem idxList_replicate_zero (d0 : Nat) (h : 0 < d0) :
    ∀ n, idxList d0 (List.replicate n (0 : ℚ))
      = some (List.replicate n (0 : Nat)) := by
  intro n
  induction n with
  | zero => rfl
  | succ n ih => simp [List.replicate_succ, idxList, qToIdx_zero d0 h, ih]

/-- Flat-mapping over a constant list is a join of copies. -/
theorem flatMap_replicate {α β : Type} (n : Nat) (i : α) (g : α → List β) :
    (List.replicate n i).flatMap g = (List.replicate n (g i)).flatten := by
  induction n with
  | zero => rfl
  | succ n ih => simp [List.replicate_succ, ih]

/-- Indexing any tensor with a nonempty first axis by the numeric zero
mask `torch.zeros_like(X)` (X of integer dtype) is advanced indexing: it
selects slice 0 once per mask element. -/
theorem tindex_zeros_like (t X : Tensor) (d0 : Nat) (rest : List Nat)
    (hdt : X.dtype = .int64) (hts : t.shape = d0 :: rest) (hd0 : 0 < d0) :
    tindex t (zeros_like X)
      = .ok ⟨X.shape ++ rest, t.dtype,
             (List.replicate X.numel (rowAt t 0)).flatten⟩ := by
  have hzd : (zeros_like X).dtype = DType.int64 := hdt
  have hzdata : (zeros_like X).data = List.replicate X.numel (0 : ℚ) := rfl
  unfold tindex
  rw [hzd]
  simp only [hts]
  rw [hzdata, idxList_replicate_zero d0 hd0 X.numel]
  simp only [flatMap_replicate]
  rfl

/-- A join of positively many copies of a nonempty list is nonempty. -/
theorem join_replicate_ne_nil {α : Type} (n : Nat) (l : List α)
    (hn : 0 < n) (hl : l ≠ []) : (List.replicate n l).flatten ≠ [] := by
  cases n with
  | zero => exact absurd hn (by simp)
  | succ n =>
      simp only [List.replicate_succ, List.flatten_cons]
      intro h
      exact hl (List.append_eq_nil.mp h).1

/-- Slice 0 of a tensor with nonempty rows and nonempty data is nonempty. -/
theorem rowAt_zero_ne_nil (t : Tensor) (h1 : 0 < t.shape.tail.prod)
    (h2 : t.data ≠ []) : rowAt t 0 ≠ [] := by
  unfold rowAt
  simp only [Nat.zero_mul, List.drop_zero]
  intro h
  rcases List.take_eq_nil_iff.mp h with h | h
  · omega
  · exact h2 h

/-- C10: with `apply_masking=False` the mask is `torch.zeros_like(X)` and
inherits X's numeric (integer) dtype rather than being boolean; indexing
predictions and X with it is integer advanced indexing — slice 0 selected
once per mask element — not an empty boolean selection, so the loss is
computed over a non-empty selection. -/
theorem model_step_zero_mask_numeric_indexing {P : Type} (net : Model P)
    (criterion : Tensor → Tensor → ℚ) (masker : Tensor → Tensor)
    (X rate a b : Tensor) (d0 : Nat) (rest : List Nat)
    (hdt : X.dtype = spikeDType)
    (hsh : X.shape = d0 :: rest)
    (hnumel : 0 < X.numel)
    (hwf : X.wellFormed)
    (hnet : ∀ t : Tensor, (net.forward net.params t).shape = t.shape
        ∧ (net.forward net.params t).data.length = t.data.length) :
    (zeros_like X).dtype = X.dtype ∧ (zeros_like X).dtype ≠ DType.bool ∧
    ∃ p t : Tensor,
      tindex (net.forward net.params
          (tmul X (scalarSub 1 (zeros_like X).toF32)).toF32) (zeros_like X)
        = .ok p ∧
      tindex X (zeros_like X) = .ok t ∧
      p.data ≠ [] ∧ t.data ≠ [] ∧
      t.data = (List.replicate X.numel (rowAt X 0)).flatten ∧
      (model_step net criterion masker (X, rate, a, b) false).1
        = .ok (criterion p.toF32 t.toF32,
               net.forward net.params
                 (tmul X (scalarSub 1 (zeros_like X).toF32)).toF32,
               X, zeros_like X, rate) := by
  have hdt' : X.dtype = DType.int64 := hdt
  have hmul : X.numel = d0 * rest.prod := by simp [Tensor.numel, hsh]
  have hd0 : 0 < d0 := by
    rcases Nat.eq_zero_or_pos d0 with h0 | h0
    · rw [hmul, h0] at hnumel; simp at hnumel
    · exact h0
  have hrow : 0 < rest.prod := by
    rcases Nat.eq_zero_or_pos rest.prod with h0 | h0
    · rw [hmul, h0] at hnumel; simp at hnumel
    · exact h0
  have hdlen : X.data.length = X.numel := hwf
  have hdne : X.data ≠ [] := by
    intro h
    rw [h] at hdlen
    simp at hdlen
    omega
  have hxm : (tmul X (scalarSub 1 (zeros_like X).toF32)).data = X.data := by
    simp only [tmul, scalarSub, Tensor.toF32, zeros_like, List.map_replicate,
      sub_zero]
    rw [← hdlen]
    exact zipWith_mul_one X.data
  have hnet1 := (hnet ((tmul X (scalarSub 1 (zeros_like X).toF32)).toF32)).1
  have hnet2 := (hnet ((tmul X (scalarSub 1 (zeros_like X).toF32)).toF32)).2
  have hSshape : (net.forward net.params
      (tmul X (scalarSub 1 (zeros_like X).toF32)).toF32).shape = d0 :: rest := by
    rw [hnet1]; exact hsh
  have hSlen : (net.forward net.params
      (tmul X (scalarSub 1 (zeros_like X).toF32)).toF32).data.length
      = X.numel := by
    rw [hnet2]
    show (tmul X (scalarSub 1 (zeros_like X).toF32)).data.length = X.numel
    rw [hxm, hdlen]
  have hSne : (net.forward net.params
      (tmul X (scalarSub 1 (zeros_like X).toF32)).toF32).data ≠ [] := by
    intro h
    rw [h] at hSlen
    simp at hSlen
    omega
  have hp := tindex_zeros_like
    (net.forward net.params (tmul X (scalarSub 1 (zeros_like X).toF32)).toF32)
    X d0 rest hdt' hSshape hd0
  have ht := tindex_zeros_like X X d0 rest hdt' hsh hd0
  have hpne : (List.replicate X.numel (rowAt (net.forward net.params
      (tmul X (scalarSub 1 (zeros_like X).toF32)).toF32) 0)).flatten ≠ [] :=
    join_replicate_ne_nil _ _ hnumel
      (rowAt_zero_ne_nil _ (by rw [hSshape]; simpa using hrow) hSne)
  have htne : (List.replicate X.numel (rowAt X 0)).flatten ≠ [] :=
    join_replicate_ne_nil _ _ hnumel
      (rowAt_zero_ne_nil X (by rw [hsh]; simpa using hrow) hdne)
  refine ⟨rfl, ?_, ?_⟩
  · show X.dtype ≠ DType.bool
    rw [hdt']
    simp
  refine ⟨_, _, hp, ht, hpne, htne, rfl, ?_⟩
  have hfrac : (zeros_like X).sum
      < (1 / 2 : ℚ) * ((zeros_like X).numel : ℚ) := by
    have h0 : (zeros_like X).sum = 0 := by
      simp [Tensor.sum, zeros_like]
    have h1 : ((zeros_like X).numel : ℚ) = (X.numel : ℚ) := by
      norm_cast
    have h2 : (0 : ℚ) < (X.numel : ℚ) := by exact_mod_cast hnumel
    rw [h0, h1]
    linarith
  have hsumle : (tmul X (scalarSub 1 (zeros_like X).toF32)).sum ≤ X.sum := by
    have : (tmul X (scalarSub 1 (zeros_like X).toF32)).sum = X.sum := by
      simp only [Tensor.sum, hxm]
    exact le_of_eq this
  have hshz : X.shape = (zeros_like X).shape := by rfl
  simp only [model_step, Bool.false_eq_true, if_false]
  rw [if_pos hshz]
  rw [if_pos hfrac, if_pos hsumle, hp, ht]

/-- Witness for C10 at the concrete integer batch `tX`. -/
theorem model_step_zero_mask_numeric_indexing_witness :
    (zeros_like tX).dtype = tX.dtype ∧ (zeros_like tX).dtype ≠ DType.bool ∧
    ∃ p t : Tensor,
      tindex (idNet.forward idNet.params
          (tmul tX (scalarSub 1 (zeros_like tX).toF32)).toF32) (zeros_like tX)
        = .ok p ∧
      tindex tX (zeros_like tX) = .ok t ∧
      p.data ≠ [] ∧ t.data ≠ [] ∧
      t.data = (List.replicate tX.numel (rowAt tX 0)).flatten ∧
      (model_step idNet mseLoss (fun _ => tBigMask)
          (tX, tRate, tUnused, tUnused) false).1
        = .ok (mseLoss p.toF32 t.toF32,
               idNet.forward idNet.params
                 (tmul tX (scalarSub 1 (zeros_like tX).toF32)).toF32,
               tX, zeros_like tX, tRate) :=
  model_step_zero_mask_numeric_indexing idNet mseLoss (fun _ => tBigMask)
    tX tRate tUnused tUnused 4 [] rfl rfl (by decide) (by decide)
    (fun _ => ⟨rfl, rfl⟩)

/-- `savePaths` distributes over concatenation of traces. -/
theorem savePaths_append (a b : List Effect) :
    savePaths (a ++ b) = savePaths a ++ savePaths b := by
  simp [savePaths]

/-- Scalar logging writes no checkpoint. -/
theorem savePaths_scalarEffects (entries : List LogEntry) :
    savePaths (scalarEffects entries) = [] := by
  induction entries with
  | nil => rfl
  | cons e es ih => simp [scalarEffects, savePaths]

/-- A train-loop iteration writes no checkpoint. -/
theorem trainBatch_savePaths {P : Type} (optStep : P → ℚ → P)
    (criterion : Tensor → Tensor → ℚ) (masker : Tensor → Tensor)
    (numBatches epoch batchNum : Nat) (st st' : RunState P) (b : Batch)
    (h : trainBatch optStep criterion masker numBatches epoch batchNum st b
      = .ok st') :
    savePaths st'.effects = savePaths st.effects := by
  unfold trainBatch at h
  split at h
  · exact absurd h (by simp)
  · simp only [] at h
    split at h
    · exact absurd h (by simp)
    · rw [Except.ok.injEq] at h
      subst h
      simp [savePaths_append, savePaths_scalarEffects]

/-- The train loop writes no checkpoint. -/
theorem trainLoop_savePaths {P : Type} (optStep : P → ℚ → P)
    (criterion : Tensor → Tensor → ℚ) (masker : Tensor → Tensor)
    (numBatches epoch : Nat) :
    ∀ (bs : List Batch) (n : Nat) (st st' : RunState P),
      trainLoop optStep criterion masker numBatches epoch bs n st = .ok st' →
      savePaths st'.effects = savePaths st.effects := by
  intro bs
  induction bs with
  | nil =>
      intro n st st' h
      unfold trainLoop at h
      rw [Except.ok.injEq] at h
      subst h
      rfl
  | cons b bs ih =>
      intro n st st' h
      unfold trainLoop at h
      split at h
      · exact absurd h (by simp)
      · rename_i st1 heq
        rw [ih (n + 1) st1 st' h,
          trainBatch_savePaths optStep criterion masker numBatches epoch n
            st st1 b heq]

/-- A validation-loop iteration writes no checkpoint. -/
theorem valBatch_savePaths {P : Type} (criterion : Tensor → Tensor → ℚ)
    (masker : Tensor → Tensor) (numBatches epoch batchNum : Nat)
    (st st' : RunState P) (b : Batch)
    (h : valBatch criterion masker numBatches epoch batchNum st b = .ok st') :
    savePaths st'.effects = savePaths st.effects := by
  unfold valBatch at h
  split at h
  · exact absurd h (by simp)
  · simp only [] at h
    split at h
    · exact absurd h (by simp)
    · rw [Except.ok.injEq] at h
      subst h
      show savePaths (_ ++ _ ++ _) = _
      rw [savePaths_append, savePaths_append, savePaths_scalarEffects]
      simp [savePaths]

/-- The validation loop writes no checkpoint. -/
theorem valLoop_savePaths {P : Type} (criterion : Tensor → Tensor → ℚ)
    (masker : Tensor → Tensor) (numBatches epoch : Nat) :
    ∀ (bs : List Batch) (n : Nat) (st st' : RunState P),
      valLoop criterion masker numBatches epoch bs n st = .ok st' →
      savePaths st'.effects = savePaths st.effects := by
  intro bs
  induction bs with
  | nil =>
      intro n st st' h
      unfold valLoop at h
      rw [Except.ok.injEq] at h
      subst h
      rfl
  | cons b bs ih =>
      intro n st st' h
      unfold valLoop at h
      split at h
      · exact absurd h (by simp)
      · rename_i st1 heq
        rw [ih (n + 1) st1 st' h,
          valBatch_savePaths criterion masker numBatches epoch n st st1 b heq]

/-- Image logging writes no checkpoint. -/
theorem imageBlock_savePaths {P : Type} (pfx : String) (epoch : Nat)
    (st st' : RunState P) (h : imageBlock pfx epoch st = .ok st') :
    savePaths st'.effects = savePaths st.effects := by
  unfold imageBlock at h
  split at h
  · exact absurd h (by simp)
  · rw [Except.ok.injEq] at h
    subst h
    simp [savePaths_append, savePaths]

/-- Each epoch writes exactly one checkpoint: `<logdir>/model.pt`. -/
theorem epochStep_savePaths {P : Type} (optStep : P → ℚ → P)
    (criterion : Tensor → Tensor → ℚ) (masker : Tensor → Tensor)
    (logdir : String) (trainBatches valBatches : List Batch) (epoch : Nat)
    (st st' : RunState P)
    (h : epochStep optStep criterion masker logdir trainBatches valBatches
      epoch st = .ok st') :
    savePaths st'.effects
      = savePaths st.effects ++ [os_path_join logdir "model.pt"] := by
  unfold epochStep at h
  split at h
  · exact absurd h (by simp)
  · rename_i st1 heq1
    split at h
    · exact absurd h (by simp)
    · rename_i st2 heq2
      split at h
      · exact absurd h (by simp)
      · rename_i st3 heq3
        split at h
        · exact absurd h (by simp)
        · rename_i st4 heq4
          rw [Except.ok.injEq] at h
          subst h
          show savePaths (st4.effects ++ [Effect.save (os_path_join logdir "model.pt")])
            = savePaths st.effects ++ [os_path_join logdir "model.pt"]
          rw [savePaths_append,
            imageBlock_savePaths "val" epoch st3 st4 heq4,
            valLoop_savePaths criterion masker valBatches.length epoch
              valBatches 0 st2 st3 heq3,
            imageBlock_savePaths "train" epoch st1 st2 heq2,
            trainLoop_savePaths optStep criterion masker trainBatches.length
              epoch trainBatches 0 st st1 heq1]
          rfl

/-- Running `n` epochs writes the same checkpoint path `n` times. -/
theorem runEpochs_savePaths {P : Type} (optStep : P → ℚ → P)
    (criterion : Tensor → Tensor → ℚ) (masker : Tensor → Tensor)
    (logdir : String) (trainBatches valBatches : List Batch) :
    ∀ (n e : Nat) (st st' : RunState P),
      runEpochs optStep criterion masker logdir trainBatches valBatches n e st
        = .ok st' →
      savePaths st'.effects
        = savePaths st.effects
          ++ List.replicate n (os_path_join logdir "model.pt") := by
  intro n
  induction n with
  | zero =>
      intro e st st' h
      unfold runEpochs at h
      rw [Except.ok.injEq] at h
      subst h
      simp
  | succ n ih =>
      intro e st st' h
      unfold runEpochs at h
      split at h
      · exact absurd h (by simp)
      · rename_i st1 heq
        rw [ih (e + 1) st1 st' h,
          epochStep_savePaths optStep criterion masker logdir trainBatches
            valBatches e st st1 heq]
        simp [List.replicate_succ]

/-- C7: every epoch of a completed training run serializes the model to
the fixed filename `model.pt` inside the logger's output directory
`Learning_rate=<value>` — the same path every epoch, so each epoch
overwrites the previous epoch's checkpoint. -/
theorem runTraining_checkpoints {P : Type} (numEpochs : Nat) (lrStr : String)
    (net0 : Model P) (optStep : P → ℚ → P)
    (criterion : Tensor → Tensor → ℚ) (masker : Tensor → Tensor)
    (trainBatches valBatches : List Batch) (st' : RunState P)
    (h : runTraining numEpochs lrStr net0 optStep criterion masker
      trainBatches valBatches = .ok st') :
    savePaths st'.effects
      = List.replicate numEpochs (os_path_join (logdirOf lrStr) "model.pt") := by
  have hx := runEpochs_savePaths optStep criterion masker (logdirOf lrStr)
    trainBatches valBatches numEpochs 0 ⟨net0, none, []⟩ st' h
  simpa [savePaths] using hx

/-- Witness for C7: a two-epoch run over one train and one validation
batch writes exactly two checkpoints, both at
`Learning_rate=0.001/model.pt`. -/
theorem runTraining_checkpoints_witness :
    ∃ st' : RunState Unit,
      runTraining 2 "0.001" idNet (fun p _ => p) mseLoss (fun _ => tMask1)
          [(tX, tRate, tUnused, tUnused)] [(tX, tRate, tUnused, tUnused)]
        = .ok st' ∧
      savePaths st'.effects
        = List.replicate 2 (os_path_join (logdirOf "0.001") "model.pt") := by
  have hok : (runTraining 2 "0.001" idNet (fun p _ => p) mseLoss
      (fun _ => tMask1) [(tX, tRate, tUnused, tUnused)]
      [(tX, tRate, tUnused, tUnused)]).toOption.isSome = true := by
    norm_num [runTraining, runEpochs, epochStep, trainLoop, trainBatch,
      valLoop, valBatch, imageBlock, model_step, log_metrics, tindex, boolSel,
      idxList, qToIdx, rowAt, tmul, scalarSub, zeros_like, Tensor.toF32,
      Tensor.sum, Tensor.numel, Tensor.min, listMin, Tensor.mean,
      Tensor.meanQ, Tensor.std, mseLoss, squaredCorr, scalarEffects,
      os_path_join, logdirOf, tlast, idNet, tX, tRate, tMask1, tUnused,
      Except.toOption, DType.promote, List.take, List.drop, List.replicate,
      List.zipWith, List.flatMap, List.flatten]
  rcases hr : runTraining 2 "0.001" idNet (fun p _ => p) mseLoss
      (fun _ => tMask1) [(tX, tRate, tUnused, tUnused)]
      [(tX, tRate, tUnused, tUnused)] with e | st'
  · rw [hr] at hok
    simp [Except.toOption] at hok
  · exact ⟨st', rfl, runTraining_checkpoints 2 "0.001" idNet (fun p _ => p)
      mseLoss (fun _ => tMask1) _ _ st' hr⟩
